import Mathlib

/-!
Shallow embedding of the query layer of `src/sql.js` (class `sqlFunctions`,
final revision of the file).  The two relational tables `users` and
`statistics` are modelled as lists of rows; every repository operation of the
class becomes a pure function on that state.  `MySQL` behaviour that the fixed
statement templates rely on is embedded directly:

* `ORDER BY username ASC` is sorting by the lexicographic order on the
  character codes of the `username` column (`strLe` below, the binary
  collation reading that the spec calls case-sensitive);
* `LIKE` patterns are matched by `likeMatch`, with `%` matching any sequence
  of characters and `_` matching exactly one character (a backslash is kept an
  ordinary character here; amended search claims therefore exclude it);
* `LIMIT ? OFFSET ?` is `List.take` after `List.drop`;
* `BETWEEN ? AND ?` is the inclusive two-sided comparison;
* `UPDATE`/`DELETE` report the number of affected rows and never fail when the
  id matches nothing.
-/

/-- Row of the `users` table: (id, username, password, first_name, last_name). -/
structure User where
  id : Nat
  username : String
  password : String
  first_name : String
  last_name : String
deriving DecidableEq, Repr

/-- Row of the `statistics` table: (id, user_id, kills, date).  The `date`
column is carried as its ISO yyyy-mm-dd text, whose lexicographic order agrees
with calendar order. -/
structure Statistic where
  id : Nat
  user_id : Nat
  kills : Int
  date : String
deriving DecidableEq, Repr

/-- The relational store: contents of the two tables. -/
structure DB where
  users : List User
  stats : List Statistic
deriving DecidableEq, Repr

/-- Payload of `createUser` / `updateUser`: the four non-id columns. -/
structure UserData where
  username : String
  password : String
  first_name : String
  last_name : String
deriving DecidableEq, Repr

/-- Payload of `createStatistic` / `updateStatistic`: the three non-id columns. -/
structure StatData where
  user_id : Nat
  kills : Int
  date : String
deriving DecidableEq, Repr

/-- Lexicographic order on character lists by character code: the binary
collation that `ORDER BY username ASC` sorts by and `BETWEEN` compares
dates by. -/
def strLe : List Char → List Char → Bool
  | [], _ => true
  | _ :: _, [] => false
  | a :: as, b :: bs =>
    if a.toNat < b.toNat then true
    else if b.toNat < a.toNat then false
    else strLe as bs

theorem strLe_cons_iff {a b : Char} {as bs : List Char} :
    strLe (a :: as) (b :: bs) = true ↔
      a.toNat < b.toNat ∨ (a.toNat = b.toNat ∧ strLe as bs = true) := by
  simp only [strLe]
  split_ifs with h1 h2
  · simp [h1]
  · simp only [false_iff, not_or, not_and]
    exact ⟨Nat.lt_asymm h2, fun h => absurd h (by omega)⟩
  · have h3 : a.toNat = b.toNat := by omega
    simp [h3, Nat.lt_irrefl]

theorem strLe_refl : ∀ x : List Char, strLe x x = true := by
  intro x
  induction x with
  | nil => rfl
  | cons a as ih => simp [strLe_cons_iff, ih]

theorem strLe_total : ∀ x y : List Char, strLe x y = true ∨ strLe y x = true := by
  intro x
  induction x with
  | nil => intro y; left; rfl
  | cons a as ih =>
    intro y
    cases y with
    | nil => right; rfl
    | cons b bs =>
      simp only [strLe_cons_iff]
      rcases Nat.lt_trichotomy a.toNat b.toNat with h | h | h
      · left; exact Or.inl h
      · rcases ih bs with h' | h'
        · exact Or.inl (Or.inr ⟨h, h'⟩)
        · exact Or.inr (Or.inr ⟨h.symm, h'⟩)
      · right; exact Or.inl h

theorem strLe_trans : ∀ x y z : List Char,
    strLe x y = true → strLe y z = true → strLe x z = true := by
  intro x
  induction x with
  | nil => intro y z _ _; rfl
  | cons a as ih =>
    intro y z hxy hyz
    cases y with
    | nil => simp [strLe] at hxy
    | cons b bs =>
      cases z with
      | nil => simp [strLe] at hyz
      | cons c cs =>
        rw [strLe_cons_iff] at hxy hyz ⊢
        rcases hxy with h1 | ⟨h1, h1'⟩ <;> rcases hyz with h2 | ⟨h2, h2'⟩
        · exact Or.inl (Nat.lt_trans h1 h2)
        · exact Or.inl (h2 ▸ h1)
        · exact Or.inl (h1 ▸ h2)
        · exact Or.inr ⟨h1.trans h2, ih bs cs h1' h2'⟩

theorem strLe_antisymm : ∀ x y : List Char,
    strLe x y = true → strLe y x = true → x = y := by
  intro x
  induction x with
  | nil =>
    intro y _ hyx
    cases y with
    | nil => rfl
    | cons b bs => simp [strLe] at hyx
  | cons a as ih =>
    intro y hxy hyx
    cases y with
    | nil => simp [strLe] at hxy
    | cons b bs =>
      rw [strLe_cons_iff] at hxy hyx
      have hn : a.toNat = b.toNat := by omega
      have h1 : strLe as bs = true := by
        rcases hxy with h | ⟨_, h⟩; · omega
        exact h
      have h2 : strLe bs as = true := by
        rcases hyx with h | ⟨_, h⟩; · omega
        exact h
      have hab : a = b := Char.ext (UInt32.ext hn)
      subst hab
      exact congrArg (a :: ·) (ih bs h1 h2)

/-- Order on `users` rows that `ORDER BY username ASC` sorts by. -/
def userLe (a b : User) : Prop := strLe a.username.data b.username.data = true

instance : DecidableRel userLe := fun a b =>
  inferInstanceAs (Decidable (strLe a.username.data b.username.data = true))

instance : IsTotal User userLe := ⟨fun a b => strLe_total a.username.data b.username.data⟩

instance : IsTrans User userLe :=
  ⟨fun a b c => strLe_trans a.username.data b.username.data c.username.data⟩

/-- Boolean test that `f` is an initial segment of `s`. -/
def isStartOf : List Char → List Char → Bool
  | [], _ => true
  | _ :: _, [] => false
  | a :: as, b :: bs => a == b && isStartOf as bs

/-- Every suffix of a character list, the list itself and `[]` included. -/
def allTails : List Char → List (List Char)
  | [] => [[]]
  | c :: s => (c :: s) :: allTails s

/-- Boolean test that `f` occurs contiguously somewhere inside `s`: the
substring containment that the spec attributes to the `LIKE`-based searches. -/
def isSubOf (f s : List Char) : Bool := (allTails s).any (fun t => isStartOf f t)

theorem isStartOf_iff {f s : List Char} :
    isStartOf f s = true ↔ ∃ v, s = f ++ v := by
  induction f generalizing s with
  | nil => simp [isStartOf]
  | cons a as ih =>
    cases s with
    | nil => simp [isStartOf]
    | cons b bs =>
      simp only [isStartOf, Bool.and_eq_true, beq_iff_eq, ih]
      constructor
      · rintro ⟨rfl, v, rfl⟩
        exact ⟨v, rfl⟩
      · rintro ⟨v, hv⟩
        injection hv with h1 h2
        exact ⟨h1.symm, v, h2⟩

theorem mem_allTails {t s : List Char} :
    t ∈ allTails s ↔ ∃ u, s = u ++ t := by
  induction s with
  | nil =>
    simp only [allTails, List.mem_singleton]
    constructor
    · rintro rfl; exact ⟨[], rfl⟩
    · rintro ⟨u, hu⟩
      cases u with
      | nil => simpa using hu.symm
      | cons a as => simp at hu
  | cons c s ih =>
    simp only [allTails, List.mem_cons, ih]
    constructor
    · rintro (rfl | ⟨u, rfl⟩)
      · exact ⟨[], rfl⟩
      · exact ⟨c :: u, rfl⟩
    · rintro ⟨u, hu⟩
      cases u with
      | nil => left; simpa using hu.symm
      | cons a as =>
        right
        injection hu with h1 h2
        exact ⟨as, h2⟩

theorem isSubOf_iff {f s : List Char} :
    isSubOf f s = true ↔ ∃ u v, s = u ++ f ++ v := by
  simp only [isSubOf, List.any_eq_true, mem_allTails, isStartOf_iff]
  constructor
  · rintro ⟨t, ⟨u, rfl⟩, v, rfl⟩
    exact ⟨u, v, by simp⟩
  · rintro ⟨u, v, rfl⟩
    exact ⟨f ++ v, ⟨u, by simp⟩, v, rfl⟩

/-- Matching of a `MySQL` `LIKE` pattern against a whole string: `%` matches
any sequence of characters, `_` matches exactly one character, every other
character matches itself.  Backslash is treated as an ordinary character. -/
def likeMatch : List Char → List Char → Bool
  | [], s => s.isEmpty
  | c :: ps, s =>
    if c = '%' then (allTails s).any (fun t => likeMatch ps t)
    else
      match s with
      | [] => false
      | d :: s' => (c == '_' || c == d) && likeMatch ps s'

/-- The argument the repository binds for a search fragment `f`: the text
`%f%`, produced by the template-literal interpolation in `src/sql.js`. -/
def likePat (f : String) : List Char := '%' :: (f.data ++ ['%'])

/-- Character lists free of the `LIKE` wildcards and of the escape character:
on these a `LIKE` fragment degenerates to plain substring search. -/
def noWild (f : List Char) : Prop := ∀ c ∈ f, c ≠ '%' ∧ c ≠ '_' ∧ c ≠ '\\'

instance noWild_decidable (f : List Char) : Decidable (noWild f) :=
  inferInstanceAs (Decidable (∀ c ∈ f, c ≠ '%' ∧ c ≠ '_' ∧ c ≠ '\\'))

theorem likeMatch_literal_then_percent {f : List Char} (hf : noWild f) :
    ∀ s : List Char, likeMatch (f ++ ['%']) s = isStartOf f s := by
  induction f with
  | nil =>
    intro s
    have hmem : ([] : List Char) ∈ allTails s := mem_allTails.mpr ⟨s, by simp⟩
    have hany : (allTails s).any (fun t => t.isEmpty) = true :=
      List.any_eq_true.mpr ⟨[], hmem, rfl⟩
    simp [likeMatch, isStartOf, hany]
  | cons a as ih =>
    intro s
    have ha := hf a (by simp)
    have has : noWild as := fun c hc => hf c (by simp [hc])
    have hu : (a == '_') = false := by simpa using ha.2.1
    cases s with
    | nil =>
      simp only [List.cons_append, likeMatch, isStartOf]
      rw [if_neg ha.1]
    | cons b bs =>
      have hstep : likeMatch ((a :: as) ++ ['%']) (b :: bs)
          = ((a == '_' || a == b) && likeMatch (as ++ ['%']) bs) := by
        simp only [List.cons_append, likeMatch, List.append_eq]
        rw [if_neg ha.1]
      rw [hstep, ih has bs, hu]
      simp [isStartOf]

theorem likeMatch_likePat_iff {f : List Char} (hf : noWild f) (s : List Char) :
    likeMatch (likePat ⟨f⟩) s = true ↔ isSubOf f s = true := by
  have h1 : likeMatch (likePat ⟨f⟩) s
      = (allTails s).any (fun t => likeMatch (f ++ ['%']) t) := by
    simp [likePat, likeMatch, List.append_eq]
  have h2 : (fun t => likeMatch (f ++ ['%']) t) = (fun t => isStartOf f t) := by
    funext t
    exact likeMatch_literal_then_percent hf t
  rw [h1, h2]
  exact Iff.rfl

/-- Embedding of `getAllUsers`: `SELECT * FROM users ORDER BY username ASC`. -/
def getAllUsers (db : DB) : List User :=
  List.insertionSort userLe db.users

/-- Embedding of `searchUserByUsername`:
`SELECT * FROM users WHERE username LIKE ? ORDER BY username ASC` with the one
bound argument `%username%`. -/
def searchUserByUsername (username : String) (db : DB) : List User :=
  List.insertionSort userLe
    (db.users.filter (fun u => likeMatch (likePat username) u.username.data))

/-- Embedding of `searchUserByDetails`: `SELECT * FROM users WHERE username
LIKE ? AND first_name LIKE ? AND last_name LIKE ? ORDER BY username ASC` with
bound arguments `%username%`, `%first_name%`, `%last_name%`. -/
def searchUserByDetails (username first_name last_name : String) (db : DB) : List User :=
  List.insertionSort userLe
    (db.users.filter (fun u =>
      likeMatch (likePat username) u.username.data
        && likeMatch (likePat first_name) u.first_name.data
        && likeMatch (likePat last_name) u.last_name.data))

/-- Embedding of `getStatisticsWithLimitOffset`:
`SELECT * FROM statistics LIMIT ? OFFSET ?` in store-default order, with the
store order being the list order of `stats`. -/
def getStatisticsWithLimitOffset (limit offset : Nat) (db : DB) : List Statistic :=
  (db.stats.drop offset).take limit

/-- Embedding of `searchStatisticsByDateRange`:
`SELECT * FROM statistics WHERE date BETWEEN ? AND ?`, both ends inclusive. -/
def searchStatisticsByDateRange (startDate endDate : String) (db : DB) : List Statistic :=
  db.stats.filter (fun s =>
    strLe startDate.data s.date.data && strLe s.date.data endDate.data)

/-- Row produced by the `SET` clause of `updateUser` on a matching row: every
column except the key is overwritten. -/
def applyUserUpdate (d : UserData) (u : User) : User :=
  { id := u.id, username := d.username, password := d.password,
    first_name := d.first_name, last_name := d.last_name }

/-- Embedding of `updateUser`: `UPDATE users SET username = ?, password = ?,
first_name = ?, last_name = ? WHERE id = ?`.  Second component is the
affected-row count the store acknowledges (rows matched by the key whose
values actually change). -/
def updateUser (id : Nat) (d : UserData) (db : DB) : DB × Nat :=
  ({ db with users := db.users.map (fun u => if u.id = id then applyUserUpdate d u else u) },
   (db.users.filter (fun u => decide (u.id = id) && decide (applyUserUpdate d u ≠ u))).length)

/-- Embedding of `deleteUser`: `DELETE FROM users WHERE id = ?`; second
component is the number of removed rows. -/
def deleteUser (id : Nat) (db : DB) : DB × Nat :=
  ({ db with users := db.users.filter (fun u => decide (u.id ≠ id)) },
   (db.users.filter (fun u => decide (u.id = id))).length)

/-- Row produced by the `SET` clause of `updateStatistic` on a matching row. -/
def applyStatUpdate (d : StatData) (s : Statistic) : Statistic :=
  { id := s.id, user_id := d.user_id, kills := d.kills, date := d.date }

/-- Embedding of `updateStatistic`:
`UPDATE statistics SET user_id = ?, kills = ?, date = ? WHERE id = ?`. -/
def updateStatistic (id : Nat) (d : StatData) (db : DB) : DB × Nat :=
  ({ db with stats := db.stats.map (fun s => if s.id = id then applyStatUpdate d s else s) },
   (db.stats.filter (fun s => decide (s.id = id) && decide (applyStatUpdate d s ≠ s))).length)

/-- Embedding of `deleteStatistic`: `DELETE FROM statistics WHERE id = ?`. -/
def deleteStatistic (id : Nat) (db : DB) : DB × Nat :=
  ({ db with stats := db.stats.filter (fun s => decide (s.id ≠ id)) },
   (db.stats.filter (fun s => decide (s.id = id))).length)

/-- Value of `SUM(kills)` for the `GROUP BY user_id` group of `uid` in the
`statistics` table (0 when `uid` has no rows, but such a `uid` forms no
group at all — see `inLowKillGroup`). -/
def sumKills (uid : Nat) (stats : List Statistic) : Int :=
  ((stats.filter (fun s => s.user_id == uid)).map Statistic.kills).sum

/-- Membership of `uid` in the subquery result `SELECT user_id FROM statistics
GROUP BY user_id HAVING SUM(kills) < t`: only a `user_id` that occurs in
`statistics` has a group, and its group must sum below `t`. -/
def inLowKillGroup (t : Int) (stats : List Statistic) (uid : Nat) : Bool :=
  stats.any (fun s => s.user_id == uid) && decide (sumKills uid stats < t)

/-- Embedding of `deleteUsersWithLessThanKills`:
`DELETE FROM users WHERE id IN (SELECT user_id FROM statistics GROUP BY
user_id HAVING SUM(kills) < ?)`.  Only the `users` table is written. -/
def deleteUsersWithLessThanKills (t : Int) (db : DB) : DB × Nat :=
  ({ db with users := db.users.filter (fun u => !inLowKillGroup t db.stats u.id) },
   (db.users.filter (fun u => inLowKillGroup t db.stats u.id)).length)

/-- Argument slot value handed to the executor `query(sql, args)`: the driver
receives each input as data, typed, never spliced into the statement text. -/
inductive Value where
  | str (s : String)
  | num (n : Int)
deriving DecidableEq, Repr

/-- One invocation of a repository method of `sqlFunctions`, carrying the
caller-supplied inputs of that method. -/
inductive Call where
  | createUser (d : UserData)
  | updateUser (id : Nat) (d : UserData)
  | deleteUser (id : Nat)
  | getAllUsers
  | createStatistic (d : StatData)
  | updateStatistic (id : Nat) (d : StatData)
  | deleteStatistic (id : Nat)
  | getAllStatistics
  | getStatisticsWithLimitOffset (limit offset : Nat)
  | searchStatisticsByDate (date : String)
  | searchStatisticsByDateRange (startDate endDate : String)
  | searchUserByUsername (username : String)
  | searchUserByDetails (username first_name last_name : String)
  | deleteUsersWithLessThanKills (kills : Int)
deriving DecidableEq, Repr

/-- The repository method a call invokes, forgetting its inputs. -/
inductive Op where
  | createUser
  | updateUser
  | deleteUser
  | getAllUsers
  | createStatistic
  | updateStatistic
  | deleteStatistic
  | getAllStatistics
  | getStatisticsWithLimitOffset
  | searchStatisticsByDate
  | searchStatisticsByDateRange
  | searchUserByUsername
  | searchUserByDetails
  | deleteUsersWithLessThanKills
deriving DecidableEq, Repr

/-- Method of a call. -/
def Call.op : Call → Op
  | .createUser _ => .createUser
  | .updateUser _ _ => .updateUser
  | .deleteUser _ => .deleteUser
  | .getAllUsers => .getAllUsers
  | .createStatistic _ => .createStatistic
  | .updateStatistic _ _ => .updateStatistic
  | .deleteStatistic _ => .deleteStatistic
  | .getAllStatistics => .getAllStatistics
  | .getStatisticsWithLimitOffset _ _ => .getStatisticsWithLimitOffset
  | .searchStatisticsByDate _ => .searchStatisticsByDate
  | .searchStatisticsByDateRange _ _ => .searchStatisticsByDateRange
  | .searchUserByUsername _ => .searchUserByUsername
  | .searchUserByDetails _ _ _ => .searchUserByDetails
  | .deleteUsersWithLessThanKills _ => .deleteUsersWithLessThanKills

/-- Statement template the method submits as the first argument of
`query(sql, args)`: the literal `sql` string of the method in `src/sql.js`,
template-literal line breaks and indentation included. -/
def Call.template : Call → String
  | .createUser _ =>
      "INSERT INTO users (username, password, first_name, last_name) VALUES (?, ?, ?, ?)"
  | .updateUser _ _ =>
      "UPDATE users SET username = ?, password = ?, first_name = ?, last_name = ? WHERE id = ?"
  | .deleteUser _ => "DELETE FROM users WHERE id = ?"
  | .getAllUsers => "SELECT * FROM users ORDER BY username ASC"
  | .createStatistic _ =>
      "INSERT INTO statistics (user_id, kills, date) VALUES (?, ?, ?)"
  | .updateStatistic _ _ =>
      "UPDATE statistics SET user_id = ?, kills = ?, date = ? WHERE id = ?"
  | .deleteStatistic _ => "DELETE FROM statistics WHERE id = ?"
  | .getAllStatistics => "SELECT * FROM statistics"
  | .getStatisticsWithLimitOffset _ _ => "SELECT * FROM statistics LIMIT ? OFFSET ?"
  | .searchStatisticsByDate _ => "SELECT * FROM statistics WHERE date = ?"
  | .searchStatisticsByDateRange _ _ => "SELECT * FROM statistics WHERE date BETWEEN ? AND ?"
  | .searchUserByUsername _ =>
      "SELECT * FROM users WHERE username LIKE ? ORDER BY username ASC"
  | .searchUserByDetails _ _ _ =>
      "\n        SELECT * FROM users \n        WHERE username LIKE ? \n        AND first_name LIKE ? \n        AND last_name LIKE ? \n        ORDER BY username ASC\n    "
  | .deleteUsersWithLessThanKills _ =>
      "\n            DELETE FROM users \n            WHERE id IN (\n                SELECT user_id \n                FROM statistics \n                GROUP BY user_id \n                HAVING SUM(kills) < ?\n            )\n        "

/-- Bound argument list the method submits as the second argument of
`query(sql, args)`.  Caller input only ever lands here; for the `LIKE`
searches the interpolation `%` ++ fragment ++ `%` happens in this list,
not in the template. -/
def Call.boundArgs : Call → List Value
  | .createUser d => [.str d.username, .str d.password, .str d.first_name, .str d.last_name]
  | .updateUser id d =>
      [.str d.username, .str d.password, .str d.first_name, .str d.last_name, .num id]
  | .deleteUser id => [.num id]
  | .getAllUsers => []
  | .createStatistic d => [.num d.user_id, .num d.kills, .str d.date]
  | .updateStatistic id d => [.num d.user_id, .num d.kills, .str d.date, .num id]
  | .deleteStatistic id => [.num id]
  | .getAllStatistics => []
  | .getStatisticsWithLimitOffset limit offset => [.num limit, .num offset]
  | .searchStatisticsByDate date => [.str date]
  | .searchStatisticsByDateRange startDate endDate => [.str startDate, .str endDate]
  | .searchUserByUsername username => [.str ("%" ++ username ++ "%")]
  | .searchUserByDetails username first_name last_name =>
      [.str ("%" ++ username ++ "%"), .str ("%" ++ first_name ++ "%"),
       .str ("%" ++ last_name ++ "%")]
  | .deleteUsersWithLessThanKills kills => [.num kills]

theorem bool_eq_of_iff {a b : Bool} (h : a = true ↔ b = true) : a = b := by
  cases a <;> cases b <;> simp_all

theorem string_eq_of_data_eq {a b : String} (h : a.data = b.data) : a = b := by
  cases a; cases b; simp_all

theorem likeMatch_likePat_eq_isSubOf (f : String) (hf : noWild f.data) (s : List Char) :
    likeMatch (likePat f) s = isSubOf f.data s := by
  cases f with
  | mk d => exact bool_eq_of_iff (likeMatch_likePat_iff hf s)

/-- C5: `listAll` on accounts (`getAllUsers`) returns every account row —
the result is a permutation of the stored `users` table — ordered by handle
(`username`) ascending. -/
theorem getAllUsers_returns_all_sorted (db : DB) :
    List.Perm (getAllUsers db) db.users ∧ List.Sorted userLe (getAllUsers db) :=
  ⟨List.perm_insertionSort userLe db.users, List.sorted_insertionSort userLe db.users⟩

/-- C2 counterexample: with one account (id 1) owning one activity record and
threshold 1, the aggregate delete removes the account (its summed kills 0 is
below 1) but the activity record referencing account 1 is still present
afterwards — no transitive deletion happens. -/
theorem aggregateDelete_leaves_orphan_stat :
    ((deleteUsersWithLessThanKills 1
        ⟨[⟨1, "u", "p", "F", "L"⟩], [⟨7, 1, 0, "2024-01-01"⟩]⟩).1.users.all
          (fun u => u.id != 1) = true)
    ∧ ((deleteUsersWithLessThanKills 1
        ⟨[⟨1, "u", "p", "F", "L"⟩], [⟨7, 1, 0, "2024-01-01"⟩]⟩).1.stats.any
          (fun s => s.user_id == 1) = true) := by
  decide

/-- C2 amended: the aggregate delete (`deleteUsersWithLessThanKills`) writes
only the `users` table; the `statistics` table is left exactly as it was, so
activity records referencing a deleted account remain (any cascade would be
the external store schema's business, not this statement's). -/
theorem aggregateDelete_stats_unchanged (t : Int) (db : DB) :
    (deleteUsersWithLessThanKills t db).1.stats = db.stats :=
  rfl

/-- C1: `deleteUsersWithLessThanKills t` deletes exactly the accounts that
have at least one activity record and whose summed kills over all their
records is strictly below `t`; an account with no activity records is never
deleted, whatever `t` is, because it has no `GROUP BY` group. -/
theorem aggregateDelete_exactly_low_groups (db : DB) (t : Int) (u : User)
    (hu : u ∈ db.users) :
    (u ∉ (deleteUsersWithLessThanKills t db).1.users ↔
      (∃ s ∈ db.stats, s.user_id = u.id) ∧ sumKills u.id db.stats < t)
    ∧ ((∀ s ∈ db.stats, s.user_id ≠ u.id) →
      u ∈ (deleteUsersWithLessThanKills t db).1.users) := by
  have key : u ∈ (deleteUsersWithLessThanKills t db).1.users
      ↔ inLowKillGroup t db.stats u.id = false := by
    simp [deleteUsersWithLessThanKills, List.mem_filter, hu]
  have hchar : inLowKillGroup t db.stats u.id = true ↔
      (∃ s ∈ db.stats, s.user_id = u.id) ∧ sumKills u.id db.stats < t := by
    simp [inLowKillGroup, List.any_eq_true]
  constructor
  · cases hcase : inLowKillGroup t db.stats u.id
    · have h1 : u ∈ (deleteUsersWithLessThanKills t db).1.users := key.mpr hcase
      have h2 : ¬((∃ s ∈ db.stats, s.user_id = u.id) ∧ sumKills u.id db.stats < t) :=
        fun hp => by simp [hchar.mpr hp] at hcase
      simp [h1, h2]
    · have h1 : u ∉ (deleteUsersWithLessThanKills t db).1.users :=
        fun hmem => by rw [key] at hmem; simp [hcase] at hmem
      have h2 := hchar.mp hcase
      simp [h1, h2]
  · intro hnone
    rw [key]
    have hany : db.stats.any (fun s => s.user_id == u.id) = false := by
      rw [List.any_eq_false]
      intro s hs
      simpa using hnone s hs
    rw [inLowKillGroup, hany, Bool.false_and]

/-- C1 witness: account 1 has three records summing to 5 and is deleted at
threshold 10 because 5 < 10; the theorem is applied to it concretely. -/
theorem aggregateDelete_exactly_low_groups_witness :
    (⟨1, "a", "p", "F", "L"⟩ : User) ∈
        (DB.mk [⟨1, "a", "p", "F", "L"⟩, ⟨2, "b", "p", "F", "L"⟩]
          [⟨11, 1, 2, "d"⟩, ⟨12, 1, 2, "d"⟩, ⟨13, 1, 1, "d"⟩]).users
    ∧ ((⟨1, "a", "p", "F", "L"⟩ : User) ∉
        (deleteUsersWithLessThanKills 10
          (DB.mk [⟨1, "a", "p", "F", "L"⟩, ⟨2, "b", "p", "F", "L"⟩]
            [⟨11, 1, 2, "d"⟩, ⟨12, 1, 2, "d"⟩, ⟨13, 1, 1, "d"⟩])).1.users ↔
        (∃ s ∈ (DB.mk [⟨1, "a", "p", "F", "L"⟩, ⟨2, "b", "p", "F", "L"⟩]
            [⟨11, 1, 2, "d"⟩, ⟨12, 1, 2, "d"⟩, ⟨13, 1, 1, "d"⟩]).stats,
          s.user_id = 1)
        ∧ sumKills 1 [⟨11, 1, 2, "d"⟩, ⟨12, 1, 2, "d"⟩, ⟨13, 1, 1, "d"⟩] < 10)
    ∧ ((∀ s ∈ (DB.mk [⟨1, "a", "p", "F", "L"⟩, ⟨2, "b", "p", "F", "L"⟩]
            [⟨11, 1, 2, "d"⟩, ⟨12, 1, 2, "d"⟩, ⟨13, 1, 1, "d"⟩]).stats,
          s.user_id ≠ 1) →
        (⟨1, "a", "p", "F", "L"⟩ : User) ∈
          (deleteUsersWithLessThanKills 10
            (DB.mk [⟨1, "a", "p", "F", "L"⟩, ⟨2, "b", "p", "F", "L"⟩]
              [⟨11, 1, 2, "d"⟩, ⟨12, 1, 2, "d"⟩, ⟨13, 1, 1, "d"⟩])).1.users) := by
  refine ⟨by decide, ?_⟩
  exact aggregateDelete_exactly_low_groups
    (DB.mk [⟨1, "a", "p", "F", "L"⟩, ⟨2, "b", "p", "F", "L"⟩]
      [⟨11, 1, 2, "d"⟩, ⟨12, 1, 2, "d"⟩, ⟨13, 1, 1, "d"⟩]) 10
    ⟨1, "a", "p", "F", "L"⟩ (by decide)

/-- C4 (amended to fragments free of the `LIKE` wildcard characters `%` and
`_` and of the escape character `\`): `searchUserByUsername f` returns exactly
the stored accounts whose handle contains `f` as a substring, ordered by
handle ascending, and the empty fragment returns every account. -/
theorem searchUserByUsername_substring_spec (f : String) (db : DB)
    (hf : noWild f.data) :
    (∀ u, u ∈ searchUserByUsername f db ↔
        u ∈ db.users ∧ ∃ x y, u.username.data = x ++ f.data ++ y)
    ∧ List.Perm (searchUserByUsername f db)
        (db.users.filter (fun u => isSubOf f.data u.username.data))
    ∧ List.Sorted userLe (searchUserByUsername f db)
    ∧ (f = "" → ∀ u, u ∈ searchUserByUsername f db ↔ u ∈ db.users) := by
  have hfe : db.users.filter (fun u => likeMatch (likePat f) u.username.data)
      = db.users.filter (fun u => isSubOf f.data u.username.data) :=
    List.filter_congr (fun u _ => likeMatch_likePat_eq_isSubOf f hf u.username.data)
  have hperm : List.Perm (searchUserByUsername f db)
      (db.users.filter (fun u => isSubOf f.data u.username.data)) := by
    rw [searchUserByUsername, hfe]
    exact List.perm_insertionSort userLe _
  have hmem : ∀ u, u ∈ searchUserByUsername f db ↔
      u ∈ db.users ∧ ∃ x y, u.username.data = x ++ f.data ++ y := by
    intro u
    rw [hperm.mem_iff, List.mem_filter]
    constructor
    · rintro ⟨g1, g2⟩
      exact ⟨g1, isSubOf_iff.mp g2⟩
    · rintro ⟨g1, g2⟩
      exact ⟨g1, isSubOf_iff.mpr g2⟩
  refine ⟨hmem, hperm, List.sorted_insertionSort userLe _, ?_⟩
  intro hempty u
  subst hempty
  rw [hmem u]
  constructor
  · rintro ⟨g, _⟩
    exact g
  · intro g
    exact ⟨g, [], u.username.data, by simp⟩

/-- C4 witness: the theorem applied to the wildcard-free fragment `li` over a
one-account store whose handle `alice` contains `li`. -/
theorem searchUserByUsername_substring_spec_witness :
    noWild "li".data
    ∧ ((∀ u, u ∈ searchUserByUsername "li" (DB.mk [⟨1, "alice", "p", "A", "X"⟩] []) ↔
        u ∈ (DB.mk [⟨1, "alice", "p", "A", "X"⟩] []).users
          ∧ ∃ x y, u.username.data = x ++ "li".data ++ y)
    ∧ List.Perm (searchUserByUsername "li" (DB.mk [⟨1, "alice", "p", "A", "X"⟩] []))
        ((DB.mk [⟨1, "alice", "p", "A", "X"⟩] []).users.filter
          (fun u => isSubOf "li".data u.username.data))
    ∧ List.Sorted userLe (searchUserByUsername "li" (DB.mk [⟨1, "alice", "p", "A", "X"⟩] []))
    ∧ ("li" = "" → ∀ u,
        u ∈ searchUserByUsername "li" (DB.mk [⟨1, "alice", "p", "A", "X"⟩] []) ↔
          u ∈ (DB.mk [⟨1, "alice", "p", "A", "X"⟩] []).users)) :=
  ⟨by decide,
   searchUserByUsername_substring_spec "li" (DB.mk [⟨1, "alice", "p", "A", "X"⟩] [])
     (by decide)⟩

/-- C4 counterexample: the fragment `a_c` is not a literal substring of the
stored handle `abc`, yet `searchUserByUsername` returns that account, because
the unescaped `_` acts as a one-character wildcard inside the `LIKE`
pattern. -/
theorem searchUserByUsername_wildcard_cex :
    searchUserByUsername "a_c" (DB.mk [⟨1, "abc", "p", "A", "X"⟩] [])
        = [⟨1, "abc", "p", "A", "X"⟩]
    ∧ isSubOf "a_c".data "abc".data = false
    ∧ ¬∃ x y, "abc".data = x ++ "a_c".data ++ y := by
  refine ⟨by decide, by decide, fun h => ?_⟩
  exact absurd (isSubOf_iff.mpr h) (by decide)

/-- C3 (amended to fragments free of the `LIKE` wildcard characters `%` and
`_` and of the escape character `\`): `searchUserByDetails` returns exactly
the accounts on which the handle, given-name and family-name fragments each
independently substring-match their field — a conjunction, with an empty
fragment matching everything — ordered by handle ascending. -/
theorem searchUserByDetails_conjunctive_spec (fu fg fl : String) (db : DB)
    (h1 : noWild fu.data) (h2 : noWild fg.data) (h3 : noWild fl.data) :
    (∀ u, u ∈ searchUserByDetails fu fg fl db ↔
        u ∈ db.users
          ∧ (∃ x y, u.username.data = x ++ fu.data ++ y)
          ∧ (∃ x y, u.first_name.data = x ++ fg.data ++ y)
          ∧ (∃ x y, u.last_name.data = x ++ fl.data ++ y))
    ∧ List.Perm (searchUserByDetails fu fg fl db)
        (db.users.filter (fun u => isSubOf fu.data u.username.data
          && (isSubOf fg.data u.first_name.data && isSubOf fl.data u.last_name.data)))
    ∧ List.Sorted userLe (searchUserByDetails fu fg fl db) := by
  have hfe : db.users.filter (fun u =>
        likeMatch (likePat fu) u.username.data
          && likeMatch (likePat fg) u.first_name.data
          && likeMatch (likePat fl) u.last_name.data)
      = db.users.filter (fun u => isSubOf fu.data u.username.data
          && (isSubOf fg.data u.first_name.data && isSubOf fl.data u.last_name.data)) :=
    List.filter_congr (fun u _ => by
      rw [likeMatch_likePat_eq_isSubOf fu h1 u.username.data,
        likeMatch_likePat_eq_isSubOf fg h2 u.first_name.data,
        likeMatch_likePat_eq_isSubOf fl h3 u.last_name.data, Bool.and_assoc])
  have hperm : List.Perm (searchUserByDetails fu fg fl db)
      (db.users.filter (fun u => isSubOf fu.data u.username.data
        && (isSubOf fg.data u.first_name.data && isSubOf fl.data u.last_name.data))) := by
    rw [searchUserByDetails]
    rw [show (fun u : User =>
        likeMatch (likePat fu) u.username.data
          && likeMatch (likePat fg) u.first_name.data
          && likeMatch (likePat fl) u.last_name.data)
      = (fun u : User =>
        (likeMatch (likePat fu) u.username.data
          && likeMatch (likePat fg) u.first_name.data)
          && likeMatch (likePat fl) u.last_name.data) from rfl]
    rw [show db.users.filter (fun u : User =>
        (likeMatch (likePat fu) u.username.data
          && likeMatch (likePat fg) u.first_name.data)
          && likeMatch (likePat fl) u.last_name.data)
      = db.users.filter (fun u => isSubOf fu.data u.username.data
          && (isSubOf fg.data u.first_name.data && isSubOf fl.data u.last_name.data))
      from hfe]
    exact List.perm_insertionSort userLe _
  refine ⟨?_, hperm, List.sorted_insertionSort userLe _⟩
  intro u
  rw [hperm.mem_iff, List.mem_filter]
  simp only [Bool.and_eq_true, isSubOf_iff]

/-- C3 witness: the theorem applied to the wildcard-free fragments `ali`, `A`
and the empty family-name fragment over a one-account store. -/
theorem searchUserByDetails_conjunctive_spec_witness :
    noWild "ali".data
    ∧ ((∀ u, u ∈ searchUserByDetails "ali" "A" "" (DB.mk [⟨1, "alice", "p", "A", "X"⟩] []) ↔
        u ∈ (DB.mk [⟨1, "alice", "p", "A", "X"⟩] []).users
          ∧ (∃ x y, u.username.data = x ++ "ali".data ++ y)
          ∧ (∃ x y, u.first_name.data = x ++ "A".data ++ y)
          ∧ (∃ x y, u.last_name.data = x ++ "".data ++ y))
    ∧ List.Perm (searchUserByDetails "ali" "A" "" (DB.mk [⟨1, "alice", "p", "A", "X"⟩] []))
        ((DB.mk [⟨1, "alice", "p", "A", "X"⟩] []).users.filter
          (fun u => isSubOf "ali".data u.username.data
            && (isSubOf "A".data u.first_name.data && isSubOf "".data u.last_name.data)))
    ∧ List.Sorted userLe
        (searchUserByDetails "ali" "A" "" (DB.mk [⟨1, "alice", "p", "A", "X"⟩] []))) :=
  ⟨by decide,
   searchUserByDetails_conjunctive_spec "ali" "A" "" (DB.mk [⟨1, "alice", "p", "A", "X"⟩] [])
     (by decide) (by decide) (by decide)⟩

/-- C3 counterexample: the given-name fragment `A_n` is not a literal
substring of the stored given name `Ann`, yet `searchUserByDetails` returns
the account, because the unescaped `_` acts as a one-character wildcard. -/
theorem searchUserByDetails_wildcard_cex :
    searchUserByDetails "" "A_n" "" (DB.mk [⟨1, "u", "p", "Ann", "L"⟩] [])
        = [⟨1, "u", "p", "Ann", "L"⟩]
    ∧ isSubOf "A_n".data "Ann".data = false
    ∧ ¬∃ x y, "Ann".data = x ++ "A_n".data ++ y := by
  refine ⟨by decide, by decide, fun h => ?_⟩
  exact absurd (isSubOf_iff.mpr h) (by decide)

/-- C10: the search fragments are interpolated into the `LIKE` pattern
unescaped, so `%` and `_` inside a fragment act as wildcards: for
`searchUserByUsername` and for each of the three fields of
`searchUserByDetails` there are a fragment and a stored account such that the
fragment is not a literal substring of the field value, yet the search
returns that account. -/
theorem search_wildcards_active :
    (∃ (f : String) (db : DB) (u : User), u ∈ db.users
      ∧ isSubOf f.data u.username.data = false
      ∧ u ∈ searchUserByUsername f db)
    ∧ (∃ (f : String) (db : DB) (u : User), u ∈ db.users
      ∧ isSubOf f.data u.username.data = false
      ∧ u ∈ searchUserByDetails f "" "" db)
    ∧ (∃ (f : String) (db : DB) (u : User), u ∈ db.users
      ∧ isSubOf f.data u.first_name.data = false
      ∧ u ∈ searchUserByDetails "" f "" db)
    ∧ (∃ (f : String) (db : DB) (u : User), u ∈ db.users
      ∧ isSubOf f.data u.last_name.data = false
      ∧ u ∈ searchUserByDetails "" "" f db) :=
  ⟨⟨"u_v", DB.mk [⟨1, "uKv", "p", "Ann", "QrS"⟩] [], ⟨1, "uKv", "p", "Ann", "QrS"⟩,
     by decide, by decide, by decide⟩,
   ⟨"u%v", DB.mk [⟨1, "uKv", "p", "Ann", "QrS"⟩] [], ⟨1, "uKv", "p", "Ann", "QrS"⟩,
     by decide, by decide, by decide⟩,
   ⟨"A_n", DB.mk [⟨1, "uKv", "p", "Ann", "QrS"⟩] [], ⟨1, "uKv", "p", "Ann", "QrS"⟩,
     by decide, by decide, by decide⟩,
   ⟨"Q%S", DB.mk [⟨1, "uKv", "p", "Ann", "QrS"⟩] [], ⟨1, "uKv", "p", "Ann", "QrS"⟩,
     by decide, by decide, by decide⟩⟩

/-- C6: with `startDate ≤ endDate`, `searchStatisticsByDateRange` returns
exactly the activity records whose date lies between the two bounds, both
endpoints included; when the bounds coincide it returns exactly the records
of that single day. -/
theorem searchStatisticsByDateRange_inclusive (startDate endDate : String) (db : DB)
    (h : strLe startDate.data endDate.data = true) :
    (∀ s, s ∈ searchStatisticsByDateRange startDate endDate db ↔
        s ∈ db.stats ∧ strLe startDate.data s.date.data = true
          ∧ strLe s.date.data endDate.data = true)
    ∧ (startDate = endDate →
        ∀ s, s ∈ searchStatisticsByDateRange startDate endDate db ↔
          s ∈ db.stats ∧ s.date = startDate) := by
  have hmem : ∀ s, s ∈ searchStatisticsByDateRange startDate endDate db ↔
      s ∈ db.stats ∧ strLe startDate.data s.date.data = true
        ∧ strLe s.date.data endDate.data = true := by
    intro s
    simp [searchStatisticsByDateRange, List.mem_filter]
  refine ⟨hmem, ?_⟩
  rintro rfl s
  rw [hmem s]
  constructor
  · rintro ⟨h1, h2, h3⟩
    exact ⟨h1, string_eq_of_data_eq (strLe_antisymm _ _ h3 h2)⟩
  · rintro ⟨h1, h4⟩
    refine ⟨h1, ?_, ?_⟩ <;> rw [h4] <;> exact strLe_refl _

/-- C6 witness: the range 2024-01-01 .. 2024-01-03 over four dated records,
applied concretely; both endpoint days match, the day after does not. -/
theorem searchStatisticsByDateRange_inclusive_witness :
    strLe "2024-01-01".data "2024-01-03".data = true
    ∧ ((∀ s, s ∈ searchStatisticsByDateRange "2024-01-01" "2024-01-03"
          (DB.mk [] [⟨1, 1, 0, "2024-01-01"⟩, ⟨2, 1, 0, "2024-01-02"⟩,
            ⟨3, 1, 0, "2024-01-03"⟩, ⟨4, 1, 0, "2024-01-04"⟩]) ↔
        s ∈ (DB.mk [] [⟨1, 1, 0, "2024-01-01"⟩, ⟨2, 1, 0, "2024-01-02"⟩,
            ⟨3, 1, 0, "2024-01-03"⟩, ⟨4, 1, 0, "2024-01-04"⟩]).stats
          ∧ strLe "2024-01-01".data s.date.data = true
          ∧ strLe s.date.data "2024-01-03".data = true)
    ∧ ("2024-01-01" = "2024-01-03" →
        ∀ s, s ∈ searchStatisticsByDateRange "2024-01-01" "2024-01-03"
          (DB.mk [] [⟨1, 1, 0, "2024-01-01"⟩, ⟨2, 1, 0, "2024-01-02"⟩,
            ⟨3, 1, 0, "2024-01-03"⟩, ⟨4, 1, 0, "2024-01-04"⟩]) ↔
          s ∈ (DB.mk [] [⟨1, 1, 0, "2024-01-01"⟩, ⟨2, 1, 0, "2024-01-02"⟩,
            ⟨3, 1, 0, "2024-01-03"⟩, ⟨4, 1, 0, "2024-01-04"⟩]).stats
            ∧ s.date = "2024-01-01")) :=
  ⟨by decide,
   searchStatisticsByDateRange_inclusive "2024-01-01" "2024-01-03"
     (DB.mk [] [⟨1, 1, 0, "2024-01-01"⟩, ⟨2, 1, 0, "2024-01-02"⟩,
       ⟨3, 1, 0, "2024-01-03"⟩, ⟨4, 1, 0, "2024-01-04"⟩]) (by decide)⟩

/-- C7: `getStatisticsWithLimitOffset limit offset` returns the rows at
positions `offset+1 .. offset+limit` of the `statistics` list in store order:
its length is `min limit (length - offset)`, its `i`-th row is the stored
`offset + i`-th row, and it is shorter than `limit` only when fewer rows
remain past the offset. -/
theorem getStatisticsWithLimitOffset_paginates (limit offset : Nat) (db : DB) :
    (getStatisticsWithLimitOffset limit offset db).length
        = min limit (db.stats.length - offset)
    ∧ (∀ i, i < (getStatisticsWithLimitOffset limit offset db).length →
        (getStatisticsWithLimitOffset limit offset db)[i]? = db.stats[offset + i]?)
    ∧ ((getStatisticsWithLimitOffset limit offset db).length < limit →
        (getStatisticsWithLimitOffset limit offset db).length
          = db.stats.length - offset) := by
  have hlen : (getStatisticsWithLimitOffset limit offset db).length
      = min limit (db.stats.length - offset) := by
    simp [getStatisticsWithLimitOffset]
  refine ⟨hlen, ?_, ?_⟩
  · intro i hi
    have hi' : i < limit := by
      rw [hlen] at hi
      omega
    rw [getStatisticsWithLimitOffset, List.getElem?_take, if_pos hi',
      List.getElem?_drop]
  · intro hlt
    rw [hlen] at hlt ⊢
    omega

/-- C7 witness: `paginate(limit=2, offset=2)` over five seeded rows returns
exactly rows 3 and 4 in store order; the theorem is applied at those
arguments. -/
theorem getStatisticsWithLimitOffset_paginates_witness :
    getStatisticsWithLimitOffset 2 2
        (DB.mk [] [⟨1, 1, 10, "a"⟩, ⟨2, 1, 20, "b"⟩, ⟨3, 1, 30, "c"⟩,
          ⟨4, 1, 40, "d"⟩, ⟨5, 1, 50, "e"⟩])
      = [⟨3, 1, 30, "c"⟩, ⟨4, 1, 40, "d"⟩]
    ∧ ((getStatisticsWithLimitOffset 2 2
        (DB.mk [] [⟨1, 1, 10, "a"⟩, ⟨2, 1, 20, "b"⟩, ⟨3, 1, 30, "c"⟩,
          ⟨4, 1, 40, "d"⟩, ⟨5, 1, 50, "e"⟩])).length
        = min 2 ((DB.mk [] [⟨1, 1, 10, "a"⟩, ⟨2, 1, 20, "b"⟩, ⟨3, 1, 30, "c"⟩,
          ⟨4, 1, 40, "d"⟩, ⟨5, 1, 50, "e"⟩]).stats.length - 2)
    ∧ (∀ i, i < (getStatisticsWithLimitOffset 2 2
        (DB.mk [] [⟨1, 1, 10, "a"⟩, ⟨2, 1, 20, "b"⟩, ⟨3, 1, 30, "c"⟩,
          ⟨4, 1, 40, "d"⟩, ⟨5, 1, 50, "e"⟩])).length →
        (getStatisticsWithLimitOffset 2 2
          (DB.mk [] [⟨1, 1, 10, "a"⟩, ⟨2, 1, 20, "b"⟩, ⟨3, 1, 30, "c"⟩,
            ⟨4, 1, 40, "d"⟩, ⟨5, 1, 50, "e"⟩]))[i]?
          = (DB.mk [] [⟨1, 1, 10, "a"⟩, ⟨2, 1, 20, "b"⟩, ⟨3, 1, 30, "c"⟩,
            ⟨4, 1, 40, "d"⟩, ⟨5, 1, 50, "e"⟩]).stats[2 + i]?)
    ∧ ((getStatisticsWithLimitOffset 2 2
        (DB.mk [] [⟨1, 1, 10, "a"⟩, ⟨2, 1, 20, "b"⟩, ⟨3, 1, 30, "c"⟩,
          ⟨4, 1, 40, "d"⟩, ⟨5, 1, 50, "e"⟩])).length < 2 →
        (getStatisticsWithLimitOffset 2 2
          (DB.mk [] [⟨1, 1, 10, "a"⟩, ⟨2, 1, 20, "b"⟩, ⟨3, 1, 30, "c"⟩,
            ⟨4, 1, 40, "d"⟩, ⟨5, 1, 50, "e"⟩])).length
          = (DB.mk [] [⟨1, 1, 10, "a"⟩, ⟨2, 1, 20, "b"⟩, ⟨3, 1, 30, "c"⟩,
            ⟨4, 1, 40, "d"⟩, ⟨5, 1, 50, "e"⟩]).stats.length - 2)) :=
  ⟨by decide,
   getStatisticsWithLimitOffset_paginates 2 2
     (DB.mk [] [⟨1, 1, 10, "a"⟩, ⟨2, 1, 20, "b"⟩, ⟨3, 1, 30, "c"⟩,
       ⟨4, 1, 40, "d"⟩, ⟨5, 1, 50, "e"⟩])⟩

theorem updateUser_noop (id : Nat) (d : UserData) (db : DB)
    (h : ∀ u ∈ db.users, u.id ≠ id) : updateUser id d db = (db, 0) := by
  have hm : db.users.map (fun u => if u.id = id then applyUserUpdate d u else u)
      = db.users := by
    rw [List.map_congr_left (fun u hu => if_neg (h u hu))]
    exact List.map_id db.users
  have hf : db.users.filter
      (fun u => decide (u.id = id) && decide (applyUserUpdate d u ≠ u)) = [] := by
    rw [List.filter_eq_nil_iff]
    intro u hu
    simp [h u hu]
  show ({ db with users :=
      db.users.map (fun u => if u.id = id then applyUserUpdate d u else u) },
    (db.users.filter
      (fun u => decide (u.id = id) && decide (applyUserUpdate d u ≠ u))).length) = (db, 0)
  rw [hm, hf]
  rfl

theorem deleteUser_noop (id : Nat) (db : DB)
    (h : ∀ u ∈ db.users, u.id ≠ id) : deleteUser id db = (db, 0) := by
  have hf1 : db.users.filter (fun u => decide (u.id ≠ id)) = db.users := by
    rw [List.filter_eq_self]
    intro u hu
    simp [h u hu]
  have hf2 : db.users.filter (fun u => decide (u.id = id)) = [] := by
    rw [List.filter_eq_nil_iff]
    intro u hu
    simp [h u hu]
  show ({ db with users := db.users.filter (fun u => decide (u.id ≠ id)) },
    (db.users.filter (fun u => decide (u.id = id))).length) = (db, 0)
  rw [hf1, hf2]
  rfl

theorem updateStatistic_noop (id : Nat) (d : StatData) (db : DB)
    (h : ∀ s ∈ db.stats, s.id ≠ id) : updateStatistic id d db = (db, 0) := by
  have hm : db.stats.map (fun s => if s.id = id then applyStatUpdate d s else s)
      = db.stats := by
    rw [List.map_congr_left (fun s hs => if_neg (h s hs))]
    exact List.map_id db.stats
  have hf : db.stats.filter
      (fun s => decide (s.id = id) && decide (applyStatUpdate d s ≠ s)) = [] := by
    rw [List.filter_eq_nil_iff]
    intro s hs
    simp [h s hs]
  show ({ db with stats :=
      db.stats.map (fun s => if s.id = id then applyStatUpdate d s else s) },
    (db.stats.filter
      (fun s => decide (s.id = id) && decide (applyStatUpdate d s ≠ s))).length) = (db, 0)
  rw [hm, hf]
  rfl

theorem deleteStatistic_noop (id : Nat) (db : DB)
    (h : ∀ s ∈ db.stats, s.id ≠ id) : deleteStatistic id db = (db, 0) := by
  have hf1 : db.stats.filter (fun s => decide (s.id ≠ id)) = db.stats := by
    rw [List.filter_eq_self]
    intro s hs
    simp [h s hs]
  have hf2 : db.stats.filter (fun s => decide (s.id = id)) = [] := by
    rw [List.filter_eq_nil_iff]
    intro s hs
    simp [h s hs]
  show ({ db with stats := db.stats.filter (fun s => decide (s.id ≠ id)) },
    (db.stats.filter (fun s => decide (s.id = id))).length) = (db, 0)
  rw [hf1, hf2]
  rfl

/-- C8: when an id matches no row, `updateUser` / `deleteUser` /
`updateStatistic` / `deleteStatistic` report zero affected rows and leave the
store unchanged instead of failing (the operations are total); in particular
deleting an id that was just deleted again succeeds with zero rows affected. -/
theorem missing_id_is_silent_noop (id : Nat) (d : UserData) (sd : StatData) (db : DB) :
    ((∀ u ∈ db.users, u.id ≠ id) →
      updateUser id d db = (db, 0) ∧ deleteUser id db = (db, 0))
    ∧ ((∀ s ∈ db.stats, s.id ≠ id) →
      updateStatistic id sd db = (db, 0) ∧ deleteStatistic id db = (db, 0))
    ∧ deleteUser id (deleteUser id db).1 = ((deleteUser id db).1, 0)
    ∧ deleteStatistic id (deleteStatistic id db).1 = ((deleteStatistic id db).1, 0) := by
  refine ⟨fun h => ⟨updateUser_noop id d db h, deleteUser_noop id db h⟩,
    fun h => ⟨updateStatistic_noop id sd db h, deleteStatistic_noop id db h⟩, ?_, ?_⟩
  · apply deleteUser_noop
    intro u hu
    simp only [deleteUser, List.mem_filter] at hu
    simpa using hu.2
  · apply deleteStatistic_noop
    intro s hs
    simp only [deleteStatistic, List.mem_filter] at hs
    simpa using hs.2

/-- C8 witness: id 2 matches neither the one stored account (id 1) nor the
one stored activity record (id 1); all four operations reduce to the
unchanged store with zero affected rows, and repeated deletion stays a
no-op. -/
theorem missing_id_is_silent_noop_witness :
    (∀ u ∈ (DB.mk [⟨1, "a", "p", "F", "L"⟩] [⟨1, 1, 0, "d"⟩]).users, u.id ≠ 2)
    ∧ (∀ s ∈ (DB.mk [⟨1, "a", "p", "F", "L"⟩] [⟨1, 1, 0, "d"⟩]).stats, s.id ≠ 2)
    ∧ updateUser 2 ⟨"x", "y", "F", "L"⟩ (DB.mk [⟨1, "a", "p", "F", "L"⟩] [⟨1, 1, 0, "d"⟩])
        = (DB.mk [⟨1, "a", "p", "F", "L"⟩] [⟨1, 1, 0, "d"⟩], 0)
    ∧ deleteUser 2 (DB.mk [⟨1, "a", "p", "F", "L"⟩] [⟨1, 1, 0, "d"⟩])
        = (DB.mk [⟨1, "a", "p", "F", "L"⟩] [⟨1, 1, 0, "d"⟩], 0)
    ∧ updateStatistic 2 ⟨1, 5, "e"⟩ (DB.mk [⟨1, "a", "p", "F", "L"⟩] [⟨1, 1, 0, "d"⟩])
        = (DB.mk [⟨1, "a", "p", "F", "L"⟩] [⟨1, 1, 0, "d"⟩], 0)
    ∧ deleteStatistic 2 (DB.mk [⟨1, "a", "p", "F", "L"⟩] [⟨1, 1, 0, "d"⟩])
        = (DB.mk [⟨1, "a", "p", "F", "L"⟩] [⟨1, 1, 0, "d"⟩], 0)
    ∧ deleteUser 2 (deleteUser 2 (DB.mk [⟨1, "a", "p", "F", "L"⟩] [⟨1, 1, 0, "d"⟩])).1
        = ((deleteUser 2 (DB.mk [⟨1, "a", "p", "F", "L"⟩] [⟨1, 1, 0, "d"⟩])).1, 0)
    ∧ deleteStatistic 2
          (deleteStatistic 2 (DB.mk [⟨1, "a", "p", "F", "L"⟩] [⟨1, 1, 0, "d"⟩])).1
        = ((deleteStatistic 2 (DB.mk [⟨1, "a", "p", "F", "L"⟩] [⟨1, 1, 0, "d"⟩])).1, 0) :=
  ⟨by decide, by decide,
   ((missing_id_is_silent_noop 2 ⟨"x", "y", "F", "L"⟩ ⟨1, 5, "e"⟩
       (DB.mk [⟨1, "a", "p", "F", "L"⟩] [⟨1, 1, 0, "d"⟩])).1 (by decide)).1,
   ((missing_id_is_silent_noop 2 ⟨"x", "y", "F", "L"⟩ ⟨1, 5, "e"⟩
       (DB.mk [⟨1, "a", "p", "F", "L"⟩] [⟨1, 1, 0, "d"⟩])).1 (by decide)).2,
   ((missing_id_is_silent_noop 2 ⟨"x", "y", "F", "L"⟩ ⟨1, 5, "e"⟩
       (DB.mk [⟨1, "a", "p", "F", "L"⟩] [⟨1, 1, 0, "d"⟩])).2.1 (by decide)).1,
   ((missing_id_is_silent_noop 2 ⟨"x", "y", "F", "L"⟩ ⟨1, 5, "e"⟩
       (DB.mk [⟨1, "a", "p", "F", "L"⟩] [⟨1, 1, 0, "d"⟩])).2.1 (by decide)).2,
   (missing_id_is_silent_noop 2 ⟨"x", "y", "F", "L"⟩ ⟨1, 5, "e"⟩
       (DB.mk [⟨1, "a", "p", "F", "L"⟩] [⟨1, 1, 0, "d"⟩])).2.2.1,
   (missing_id_is_silent_noop 2 ⟨"x", "y", "F", "L"⟩ ⟨1, 5, "e"⟩
       (DB.mk [⟨1, "a", "p", "F", "L"⟩] [⟨1, 1, 0, "d"⟩])).2.2.2⟩

/-- C9: the statement template a repository method hands to the executor is a
fixed string determined by the method alone — two calls of the same method
with any two inputs submit the identical template, caller input reaching the
store only through the bound-argument list. -/
theorem statement_templates_fixed (c c' : Call) (h : c.op = c'.op) :
    c.template = c'.template := by
  cases c <;> cases c' <;> first | rfl | exact Op.noConfusion h

/-- C9 witness: a benign and a wildcard-and-operator-laden fragment submit
the same search template. -/
theorem statement_templates_fixed_witness :
    (Call.searchUserByUsername "alice").op
        = (Call.searchUserByUsername "x%_y OR 1=1").op
    ∧ (Call.searchUserByUsername "alice").template
        = (Call.searchUserByUsername "x%_y OR 1=1").template :=
  ⟨rfl,
   statement_templates_fixed (Call.searchUserByUsername "alice")
     (Call.searchUserByUsername "x%_y OR 1=1") rfl⟩
